import Mathlib

/-!
Verification development for the cloudlog delivery engine.

This file gives a shallow embedding, in Lean, of the delivery engine of the
cloudlog repository: the `delivery` package (`SyncDeliverer`, `AsyncDeliverer`,
`BatchDeliverer`) and the `logger` package (`AsyncLogger`).  Pure functions of
the Go source are translated into Lean functions; stateful methods become
functions from an explicit state record to a new state record; effects that
the methods perform against the outside world (calls to `Sender.Send`, sleeps
between retry attempts, atomic counter updates) are recorded in explicit event
traces so that they can be counted and ordered in theorem statements.
Go channels of capacity `n` are modelled as bounded FIFO lists: a non-blocking
send succeeds exactly when the list holds fewer than `n` elements.
Machine integers (`int`, `int64`, `uint64`) are modelled as `Nat` or `Int`;
none of the modelled code paths can overflow 64-bit counters on realistic
inputs, so no modular reduction is applied.
-/

namespace Cloudlog

/-- Sentinel error categories of the `errors` package (`ErrBufferFull`,
`ErrTimeout`, `ErrShutdown`, `ErrLoggerClosed`, `ErrProcessingFailed`).
Each Go sentinel is one constructor; wrapped errors compare by sentinel. -/
inductive GoErr
  | bufferFull
  | timeout
  | shutdown
  | loggerClosed
  | processingFailed
  deriving DecidableEq, Repr

/-- `delivery.LogEntry`: one log record handed to a deliverer.
`Formatted []byte` is modelled as a list of byte values; `Timestamp` as an
abstract instant. -/
structure LogEntry where
  job : String
  level : String
  message : String
  formatted : List Nat
  timestamp : Nat
  deriving DecidableEq, Repr

/-! ## SyncDeliverer (src/unnamed/part_015)

`SyncDeliverer` carries only the two counters `delivered` and `failed`.
The external `Sender` is a parameter: a function from the arguments of
`Send(job, payload)` to `Option ε`, where `none` models a `nil` error and
`some e` models a failed send returning the opaque error `e`. -/

structure SyncDeliverer where
  delivered : Nat
  failed : Nat
  deriving DecidableEq, Repr

/-- Result of one `SyncDeliverer.Deliver` call: the updated deliverer state,
the returned error, and the list of `Sender.Send` calls made (as
`(job, payload)` pairs, in order). -/
structure SyncDeliverResult (ε : Type) where
  state : SyncDeliverer
  ret : Option ε
  sendCalls : List (String × List Nat)

/-- `SyncDeliverer.Deliver` (part_015 lines 26-35): call `sender.Send(job,
formatted)` once; on error increment `failed` and return the error; on
success increment `delivered` and return `nil`. -/
def SyncDeliverer.Deliver (d : SyncDeliverer) (sender : String → List Nat → Option ε)
    (job _level _message : String) (formatted : List Nat) (_timestamp : Nat) :
    SyncDeliverResult ε :=
  match sender job formatted with
  | some e => ⟨{ d with failed := d.failed + 1 }, some e, [(job, formatted)]⟩
  | none => ⟨{ d with delivered := d.delivered + 1 }, none, [(job, formatted)]⟩

/-- `SyncDeliverer.Flush` (part_015 lines 38-40): a no-op returning `nil`. -/
def SyncDeliverer.Flush (d : SyncDeliverer) : SyncDeliverer × Option GoErr :=
  (d, none)

/-- `SyncDeliverer.Close` (part_015 lines 43-45): a no-op returning `nil`. -/
def SyncDeliverer.Close (d : SyncDeliverer) : SyncDeliverer × Option GoErr :=
  (d, none)

/-! ## AsyncDeliverer state and admission (src/unnamed/part_016)

The buffered channel `queue` of capacity `QueueSize` is a bounded FIFO list;
`buffered` is the `int64` counter (it is decremented by workers after they
receive from the channel, so it is an `Int`).  `doneClosed` records whether
`close(d.done)` has happened (it is `close`d exactly by `Close`). -/

structure ADState where
  queue : List LogEntry
  queueSize : Nat
  buffered : Int
  delivered : Nat
  failed : Nat
  dropped : Nat
  retried : Nat
  doneClosed : Bool
  deriving DecidableEq, Repr

/-- `AsyncDeliverer.Deliver` (part_016 lines 48-67): build the entry and try a
non-blocking channel send (`select` with a `default` branch).  The send
succeeds exactly when the channel holds fewer than `queueSize` entries; then
`buffered` is incremented and `nil` returned.  Otherwise `dropped` is
incremented and `BufferFullError` returned; the entry is not stored anywhere.
There is no check of any closed flag on this path. -/
def ADState.Deliver (st : ADState) (e : LogEntry) : ADState × Option GoErr :=
  if st.queue.length < st.queueSize then
    ({ st with queue := st.queue ++ [e], buffered := st.buffered + 1 }, none)
  else
    ({ st with dropped := st.dropped + 1 }, some GoErr.bufferFull)

/-- The state change performed by `AsyncDeliverer.Close` (part_016 lines
152-168): `close(d.done)` is executed unconditionally, then the call waits for
the workers.  No closed flag readable by `Deliver` exists and the queue
channel itself is never closed. -/
def ADState.CloseTransition (st : ADState) : ADState :=
  { st with doneClosed := true }

/-! ## BatchDeliverer state and admission (src/unnamed/part_017) -/

structure BDState where
  queue : List LogEntry
  queueSize : Nat
  currentBatch : List LogEntry
  buffered : Int
  delivered : Nat
  failed : Nat
  dropped : Nat
  retried : Nat
  batches : Nat
  doneClosed : Bool
  deriving DecidableEq, Repr

/-- `BatchDeliverer.Deliver` (part_017 lines 56-75): textually the same
admission path as `AsyncDeliverer.Deliver` — non-blocking channel send,
`buffered` incremented on success, `dropped` incremented and
`BufferFullError` returned when the channel is full. -/
def BDState.Deliver (st : BDState) (e : LogEntry) : BDState × Option GoErr :=
  if st.queue.length < st.queueSize then
    ({ st with queue := st.queue ++ [e], buffered := st.buffered + 1 }, none)
  else
    ({ st with dropped := st.dropped + 1 }, some GoErr.bufferFull)

/-! ## Retry loops as event traces (part_016 processEntry, part_017 sendBatch)

The observable effects of the retry code are recorded as events.  The error
handler event exists so that theorems can speak about how often the pluggable
error handler of the spec is invoked: the `delivery` package deliverers have
no error-handler field at all, so no code path of part_016/part_017 ever
emits `handlerCall`. -/

inductive DelEvent
  | send (job : String) (payload : List Nat)
  | sleep (duration : Nat)
  | incRetried
  | incFailed (n : Nat)
  | incDelivered (n : Nat)
  | handlerCall
  deriving DecidableEq, Repr

/-- The `for attempt := 0; attempt <= maxRetries; attempt++` loop shared by
`AsyncDeliverer.processEntry` (part_016 lines 97-108) and the per-entry loop
of `BatchDeliverer.sendBatch` (part_017 lines 153-164).  `sender i` is the
result of the `i`-th `Send` call for this entry (`none` = `nil` error).
`attempt` is the Go loop variable; the second argument counts the remaining
iterations (`maxRetries + 1 - attempt`).  On `attempt > 0` the loop first
increments `retried` and sleeps `retryInterval` before calling `Send`.
Returns the event trace and whether some attempt succeeded. -/
def attemptLoop (sender : Nat → Option ε) (retryInterval : Nat) (job : String)
    (payload : List Nat) : Nat → Nat → List DelEvent × Bool
  | _, 0 => ([], false)
  | attempt, remaining + 1 =>
    let pre : List DelEvent :=
      if 0 < attempt then [DelEvent.incRetried, DelEvent.sleep retryInterval] else []
    match sender attempt with
    | none => (pre ++ [DelEvent.send job payload], true)
    | some _ =>
      let rest := attemptLoop sender retryInterval job payload (attempt + 1) remaining
      (pre ++ DelEvent.send job payload :: rest.1, rest.2)

/-- `AsyncDeliverer.processEntry` (part_016 lines 93-112): run the retry loop
for one entry; on success increment `delivered` by 1 (inside the loop, right
after the successful send, which is the last event either way), on exhaustion
increment `failed` by 1. -/
def processEntryTrace (sender : Nat → Option ε) (maxRetries retryInterval : Nat)
    (e : LogEntry) : List DelEvent :=
  let r := attemptLoop sender retryInterval e.job e.formatted 0 (maxRetries + 1)
  if r.2 then r.1 ++ [DelEvent.incDelivered 1] else r.1 ++ [DelEvent.incFailed 1]

/-- One entry of `BatchDeliverer.sendBatch` (part_017 lines 149-170): the
retry loop, followed by `failed++` when the final error is non-nil.  The
Bool records whether the entry counted toward `success`. -/
def sendOneEntry (sender : LogEntry → Nat → Option ε) (maxRetries retryInterval : Nat)
    (e : LogEntry) : List DelEvent × Bool :=
  let r := attemptLoop (sender e) retryInterval e.job e.formatted 0 (maxRetries + 1)
  (if r.2 then r.1 else r.1 ++ [DelEvent.incFailed 1], r.2)

/-- `BatchDeliverer.sendBatch` (part_017 lines 140-174): empty batches return
immediately; otherwise each entry is retried individually in order, and at
the end `delivered` is incremented by the number of successful entries.
(The `batches` counter incremented at line 145 is not referenced by any claim
and is not modelled.) -/
def sendBatchTrace (sender : LogEntry → Nat → Option ε) (maxRetries retryInterval : Nat)
    (batch : List LogEntry) : List DelEvent :=
  if batch.isEmpty then []
  else
    let per := batch.map (sendOneEntry sender maxRetries retryInterval)
    (per.map Prod.fst).flatten ++ [DelEvent.incDelivered (per.countP (fun p => p.2))]

/-! Counting and extraction helpers over traces. -/

def isSendEvent : DelEvent → Bool
  | DelEvent.send _ _ => true
  | _ => false

def isRetriedEvent : DelEvent → Bool
  | DelEvent.incRetried => true
  | _ => false

def isHandlerEvent : DelEvent → Bool
  | DelEvent.handlerCall => true
  | _ => false

def sleepDuration : DelEvent → Option Nat
  | DelEvent.sleep d => some d
  | _ => none

def sendCallOf : DelEvent → Option (String × List Nat)
  | DelEvent.send j p => some (j, p)
  | _ => none

def failedAmount : DelEvent → Option Nat
  | DelEvent.incFailed n => some n
  | _ => none

def deliveredAmount : DelEvent → Option Nat
  | DelEvent.incDelivered n => some n
  | _ => none

/-- Number of `Sender.Send` calls in a trace. -/
def countSends (tr : List DelEvent) : Nat := tr.countP isSendEvent

/-- Number of increments of the `retried` counter in a trace. -/
def countRetried (tr : List DelEvent) : Nat := tr.countP isRetriedEvent

/-- Number of error-handler invocations in a trace. -/
def countHandlerCalls (tr : List DelEvent) : Nat := tr.countP isHandlerEvent

/-- The sleep durations of a trace, in order. -/
def sleepsOf (tr : List DelEvent) : List Nat := tr.filterMap sleepDuration

/-- The `(job, payload)` arguments of the `Send` calls of a trace, in order. -/
def sendsOf (tr : List DelEvent) : List (String × List Nat) := tr.filterMap sendCallOf

/-- Total amount added to the `failed` counter by a trace. -/
def failedDelta (tr : List DelEvent) : Nat := (tr.filterMap failedAmount).sum

/-- Total amount added to the `delivered` counter by a trace. -/
def deliveredDelta (tr : List DelEvent) : Nat := (tr.filterMap deliveredAmount).sum

/-- The per-entry trace that `sendOneEntry` produces under a permanently
failing sender: one initial send, then `maxRetries` blocks of
(retried increment, sleep, send), then the `failed` increment. -/
def permFailEntryTrace (maxRetries retryInterval : Nat) (e : LogEntry) : List DelEvent :=
  DelEvent.send e.job e.formatted ::
    (List.replicate maxRetries
      [DelEvent.incRetried, DelEvent.sleep retryInterval,
        DelEvent.send e.job e.formatted]).flatten
    ++ [DelEvent.incFailed 1]

/-! ## BatchDeliverer batch processor (part_017 lines 88-137)

`batchProcessor` handling of a queue entry: decrement `buffered`, append the
entry to `currentBatch` under the mutex, and when the batch has reached
`BatchSize`, hand the whole batch to a `sendBatch` goroutine
(`sendCurrentBatchLocked`, lines 130-137) and start a fresh batch.
`dispatched` records the batches handed to `sendBatch`, in order.
The ticker and done cases (lines 105-124) dispatch the batch when non-empty;
they are not exercised by the claims settled against this model. -/

structure BDProcState where
  currentBatch : List LogEntry
  dispatched : List (List LogEntry)
  buffered : Int
  deriving DecidableEq, Repr

def bdProcessQueueEntry (batchSize : Nat) (st : BDProcState) (e : LogEntry) : BDProcState :=
  let b := st.currentBatch ++ [e]
  if batchSize ≤ b.length then
    { currentBatch := [], dispatched := st.dispatched ++ [b], buffered := st.buffered - 1 }
  else
    { st with currentBatch := b, buffered := st.buffered - 1 }

/-- Processing a sequence of queue receives, in order, with no ticker tick
and no done signal in between. -/
def bdProcessQueueEntries (batchSize : Nat) (st : BDProcState) (es : List LogEntry) :
    BDProcState :=
  es.foldl (bdProcessQueueEntry batchSize) st

/-! ## Close paths -/

inductive CloseOutcome
  | ok
  | err (e : GoErr)
  | crash  -- a Go runtime fault: close of an already-closed channel
  deriving DecidableEq, Repr

/-- `AsyncDeliverer.Close` (part_016 lines 152-168): `close(d.done)` with no
guard — when `done` is already closed the Go runtime faults — then wait for
the workers bounded by `ShutdownTimeout`; `workersExitInTime` says whether
`wg.Wait` finished within the timeout (`ShutdownError` otherwise). -/
def ADState.CloseStep (st : ADState) (workersExitInTime : Bool) : ADState × CloseOutcome :=
  if st.doneClosed then (st, CloseOutcome.crash)
  else
    ({ st with doneClosed := true },
      if workersExitInTime then CloseOutcome.ok else CloseOutcome.err GoErr.shutdown)

/-- `BatchDeliverer.Close` (part_017 lines 221-248): first `d.Flush()` (its
outcome, decided by the concurrently running processor, is the
`flushResult` parameter), then `close(d.done)` with no guard — a fault when
`done` is already closed — then wait for the processor bounded by
`ShutdownTimeout`; the flush error takes precedence in the return value. -/
def BDState.CloseStep (st : BDState) (flushResult : Option GoErr)
    (workersExitInTime : Bool) : BDState × CloseOutcome :=
  if st.doneClosed then (st, CloseOutcome.crash)
  else
    let st1 := { st with doneClosed := true }
    match flushResult with
    | some e => (st1, CloseOutcome.err e)
    | none =>
      if workersExitInTime then (st1, CloseOutcome.ok)
      else (st1, CloseOutcome.err GoErr.shutdown)

/-! ## AsyncDeliverer as a small-step concurrent system (part_016)

For the flush-completeness claim the interleaving of the worker goroutine
(lines 78-90), the `Flush` watcher goroutine (lines 119-140) and the caller
matters.  Each label below is one atomic step of one goroutine, justified by
the atomic counter operations the source uses:

* `deliver e` — `Deliver` (lines 48-67).
* `workerReceive` — a worker receives an entry from the queue and decrements
  `buffered` (lines 83-84); the entry is now held by the worker, not yet
  given to `processEntry`.
* `workerProcess` — the worker runs `processEntry` to completion (line 85);
  modelled as one atomic step, which only makes completion signals stronger.
* `flushCall` — `Flush` is invoked and spawns its watcher (lines 115-119).
* `flushObserveZero` — the watcher loads `buffered`, sees 0, and enters the
  20 ms sleep (lines 123-128).
* `flushRecheck` — after the sleep the watcher re-loads `buffered`; on 0 it
  closes `flushDone`, making `Flush` return nil (lines 131-134); otherwise
  it goes back to watching (line 138).
* `flushTimeout` — `ShutdownTimeout` elapses before `flushDone` is closed
  and `Flush` returns `TimeoutError` (lines 143-148).

Sleeping is only the passage of time: the scheduler may run the watcher's
two loads while the worker goroutine is preempted between its `buffered`
decrement and the `Send` call inside `processEntry`. -/

inductive FlushPhase
  | watching
  | sleptOnce
  | signalled
  deriving DecidableEq, Repr

structure AsyncSys where
  queue : List LogEntry
  queueSize : Nat
  buffered : Int
  delivered : Nat
  failed : Nat
  dropped : Nat
  retried : Nat
  handling : Option LogEntry
  senderCalls : List (String × List Nat)
  flushPhase : Option FlushPhase
  flushReturn : Option (Option GoErr)
  deriving DecidableEq, Repr

inductive AsyncLabel
  | deliver (e : LogEntry)
  | workerReceive
  | workerProcess
  | flushCall
  | flushObserveZero
  | flushRecheck
  | flushTimeout
  deriving DecidableEq, Repr

def asyncSysStep (sender : LogEntry → Nat → Option GoErr) (maxRetries retryInterval : Nat)
    (sys : AsyncSys) : AsyncLabel → Option AsyncSys
  | AsyncLabel.deliver e =>
    if sys.queue.length < sys.queueSize then
      some { sys with queue := sys.queue ++ [e], buffered := sys.buffered + 1 }
    else some { sys with dropped := sys.dropped + 1 }
  | AsyncLabel.workerReceive =>
    match sys.queue, sys.handling with
    | e :: rest, none =>
      some { sys with queue := rest, buffered := sys.buffered - 1, handling := some e }
    | _, _ => none
  | AsyncLabel.workerProcess =>
    match sys.handling with
    | some e =>
      let tr := processEntryTrace (sender e) maxRetries retryInterval e
      some { sys with
        handling := none,
        delivered := sys.delivered + deliveredDelta tr,
        failed := sys.failed + failedDelta tr,
        retried := sys.retried + countRetried tr,
        senderCalls := sys.senderCalls ++ sendsOf tr }
    | none => none
  | AsyncLabel.flushCall =>
    match sys.flushPhase with
    | none => some { sys with flushPhase := some FlushPhase.watching, flushReturn := none }
    | some _ => none
  | AsyncLabel.flushObserveZero =>
    match sys.flushPhase with
    | some FlushPhase.watching =>
      if sys.buffered = 0 then some { sys with flushPhase := some FlushPhase.sleptOnce }
      else none
    | _ => none
  | AsyncLabel.flushRecheck =>
    match sys.flushPhase with
    | some FlushPhase.sleptOnce =>
      if sys.buffered = 0 then
        some { sys with flushPhase := some FlushPhase.signalled, flushReturn := some none }
      else some { sys with flushPhase := some FlushPhase.watching }
    | _ => none
  | AsyncLabel.flushTimeout =>
    match sys.flushPhase with
    | some FlushPhase.watching =>
      some { sys with flushReturn := some (some GoErr.timeout) }
    | some FlushPhase.sleptOnce =>
      some { sys with flushReturn := some (some GoErr.timeout) }
    | _ => none

/-- Run a schedule of steps; `none` when some step is not enabled. -/
def asyncSysRun (sender : LogEntry → Nat → Option GoErr) (maxRetries retryInterval : Nat)
    (sys : AsyncSys) : List AsyncLabel → Option AsyncSys
  | [] => some sys
  | l :: rest =>
    match asyncSysStep sender maxRetries retryInterval sys l with
    | some sys2 => asyncSysRun sender maxRetries retryInterval sys2 rest
    | none => none

/-! ## AsyncLogger (src/logger/async_logger.go)

Key-value arguments (`...interface{}`) are modelled by `KV`: a string, a
completion channel (`chan struct{}`, named by an identifier), or any other
value. -/

inductive KV
  | str (s : String)
  | chanId (id : Nat)
  | other (id : Nat)
  deriving DecidableEq, Repr

/-- `asyncLogEntry` (async_logger.go lines 58-64); metadata is an association
list standing for the Go map (iteration order fixed by the list). -/
structure ALEntry where
  job : String
  level : String
  message : String
  keyvals : List KV
  metadata : List (String × KV)
  deriving DecidableEq, Repr

def kvIsMarkerKey : KV → Bool
  | KV.str s => s == "_flush_marker"
  | _ => false

/-- `AsyncLogger.isFlushMarker` (lines 388-397): scan `keyvals` with index
`i`; positions with `i+1 < len(keyvals)` (everything except the last
element) that hold the string `"_flush_marker"` make the entry a marker.
In the recursion, the head is at the last position exactly when the tail is
empty. -/
def isFlushMarker : List KV → Bool
  | [] => false
  | kv :: rest => (kvIsMarkerKey kv && !rest.isEmpty) || isFlushMarker rest

/-- `AsyncLogger.processFlushMarker` (lines 400-411): for every position
`i` with `i+1 < len(keyvals)` holding the marker string whose successor is a
channel, close that channel.  Returns the identifiers of the channels
closed, in order. -/
def processFlushMarker : List KV → List Nat
  | kv :: next :: rest =>
    (if kvIsMarkerKey kv then
      match next with
      | KV.chanId id => [id]
      | _ => []
    else []) ++ processFlushMarker (next :: rest)
  | _ => []

/-- The mutable state of an `AsyncLogger` (lines 39-55) as read and written
by the modelled methods.  `buffer` is the bounded entry channel;
`doneClosed`/`bufferClosed`/`tickerStopped` record the shutdown steps of
`Close`. -/
structure ALState where
  job : String
  metadata : List (String × KV)
  buffer : List ALEntry
  bufferCap : Nat
  batchSize : Nat
  blockOnFull : Bool
  maxRequestSize : Nat
  closed : Bool
  doneClosed : Bool
  bufferClosed : Bool
  tickerStopped : Bool
  deriving DecidableEq, Repr

inductive LogOutcome
  | ret (e : Option GoErr)
  | blocked
  deriving DecidableEq, Repr

/-- `AsyncLogger.log` (lines 453-487): reject with `ErrLoggerClosed` when the
closed flag is set; otherwise build the entry (metadata copied) and enqueue
it.  With `blockOnFull`, a full buffer blocks unless `done` is closed, which
yields `ErrShutdown`; without it, a full buffer yields `ErrBufferFull`. -/
def ALState.log (st : ALState) (level message : String) (keyvals : List KV) :
    ALState × LogOutcome :=
  if st.closed then (st, LogOutcome.ret (some GoErr.loggerClosed))
  else
    let entry : ALEntry := ⟨st.job, level, message, keyvals, st.metadata⟩
    if st.blockOnFull then
      if st.buffer.length < st.bufferCap then
        ({ st with buffer := st.buffer ++ [entry] }, LogOutcome.ret none)
      else if st.doneClosed then (st, LogOutcome.ret (some GoErr.shutdown))
      else (st, LogOutcome.blocked)
    else
      if st.buffer.length < st.bufferCap then
        ({ st with buffer := st.buffer ++ [entry] }, LogOutcome.ret none)
      else (st, LogOutcome.ret (some GoErr.bufferFull))

/-- `AsyncLogger.Close` (lines 595-626): under the lock, a second call finds
`closed` already set and returns `ErrLoggerClosed` at once; the first call
sets `closed`, then runs `Flush` (its outcome, decided by the concurrent
workers, is the `flushResult` parameter).  A flush error other than
`ErrLoggerClosed` is returned early, skipping the remaining shutdown steps;
otherwise the ticker is stopped, `done` and the buffer channel are closed,
and the workers are awaited. -/
def ALState.CloseStep (st : ALState) (flushResult : Option GoErr) : ALState × CloseOutcome :=
  if st.closed then (st, CloseOutcome.err GoErr.loggerClosed)
  else
    let st1 := { st with closed := true }
    match flushResult with
    | some e =>
      if e = GoErr.loggerClosed then
        ({ st1 with tickerStopped := true, doneClosed := true, bufferClosed := true },
          CloseOutcome.ok)
      else (st1, CloseOutcome.err e)
    | none =>
      ({ st1 with tickerStopped := true, doneClosed := true, bufferClosed := true },
        CloseOutcome.ok)

/-- What `handleFlushMarkers` (lines 204-230) does with one entry received
from the buffer, together with `shouldRequeueEntry` (lines 232-246) and
`requeueEntry` (lines 248-263): markers are consumed (their channels
closed); other entries are requeued when the logger is not shutting down and
the buffer has room, and silently dropped otherwise. -/
inductive MarkerAction
  | consumedMarker (signalled : List Nat)
  | requeued
  | droppedNoRequeue
  | droppedBufferFull
  deriving DecidableEq, Repr

def handleBufferEntry (st : ALState) (e : ALEntry) : MarkerAction :=
  if isFlushMarker e.keyvals then
    MarkerAction.consumedMarker (processFlushMarker e.keyvals)
  else if st.closed || st.doneClosed then
    MarkerAction.droppedNoRequeue
  else if st.buffer.length < st.bufferCap then
    MarkerAction.requeued
  else
    MarkerAction.droppedBufferFull

/-- The batch accumulation of a regular worker, `processLogs` (lines
636-675): every entry received from the buffer — markers included, there is
no marker check on this path — is appended to the worker's batch; a batch
that reaches `batchSize` is handed to `processBatch`.  `dispatched` records
the batches handed over, in order. -/
structure ALProcState where
  batch : List ALEntry
  dispatched : List (List ALEntry)
  deriving DecidableEq, Repr

def alProcessLogsEntry (batchSize : Nat) (st : ALProcState) (e : ALEntry) : ALProcState :=
  let b := st.batch ++ [e]
  if batchSize ≤ b.length then ⟨[], st.dispatched ++ [b]⟩ else ⟨b, st.dispatched⟩

/-- `formatter.LogEntry` as produced by `createFormattedEntry`. -/
structure FmtEntry where
  job : String
  level : String
  keyvals : List KV
  deriving DecidableEq, Repr

/-- `AsyncLogger.createFormattedEntry` (lines 414-430): prepend
`"message", message` to the entry's key-values and append the metadata
pairs. -/
def createFormattedEntry (e : ALEntry) : FmtEntry :=
  ⟨e.job, e.level,
    KV.str "message" :: KV.str e.message :: e.keyvals
      ++ (e.metadata.map (fun kv => [KV.str kv.1, kv.2])).flatten⟩

/-- `processBatch` (lines 312-316) formats every entry of a dispatched batch
through `createFormattedEntry`, with no marker check. -/
def batchFormattedEntries (batch : List ALEntry) : List FmtEntry :=
  batch.map createFormattedEntry

/-! ## Size-aware payload splitting (async_logger.go lines 289-368)

`client.LokiEntry`/`client.LokiStream` are modelled with the field that
`estimateBatchSize` reads: each stream's `Values`, a list of
`[timestamp, line]` string pairs.  String length stands for Go's byte
length. -/

structure LokiStream where
  values : List (List String)
  deriving DecidableEq, Repr

structure LokiEntry where
  streams : List LokiStream
  deriving DecidableEq, Repr

/-- `EstimatedEntryOverhead` (line 32). -/
def EstimatedEntryOverhead : Nat := 100

def valueSize (v : List String) : Nat :=
  if 2 ≤ v.length then ((v.get? 1).getD "").length + EstimatedEntryOverhead else 0

def streamSize (s : LokiStream) : Nat := (s.values.map valueSize).sum

/-- `AsyncLogger.estimateBatchSize` (lines 357-368): sum over all stream
values with at least two components of `len(value[1]) + 100`. -/
def estimateBatchSize (je : LokiEntry) : Nat := (je.streams.map streamSize).sum

/-- The accumulation loop of `AsyncLogger.processBatch` (lines 289-354) on
the success path, after per-job grouping and `FormatBatch`: the input is the
list of per-job formatted `LokiEntry` values in map iteration order.  For
each group: add its estimated size to the running total; if the total now
exceeds `maxRequestSize` and the combined payload is non-empty, send the
combined payload, start an empty one, and reset the running total to zero
(the source resets to `0`, not to the size of the group about to be added);
then append the group's streams.  At the end the remaining combined payload,
when non-empty, is sent.  Returns the payloads handed to `Sender.Send`, in
order. -/
def processBatchGo (maxRequestSize : Nat) :
    List LokiEntry → List LokiStream → Nat → List LokiEntry → List LokiEntry
  | [], combined, _, sends =>
    if 0 < combined.length then sends ++ [⟨combined⟩] else sends
  | je :: rest, combined, est, sends =>
    let est2 := est + estimateBatchSize je
    if maxRequestSize < est2 ∧ 0 < combined.length then
      processBatchGo maxRequestSize rest je.streams 0 (sends ++ [⟨combined⟩])
    else
      processBatchGo maxRequestSize rest (combined ++ je.streams) est2 sends

def processBatchSends (maxRequestSize : Nat) (jobEntries : List LokiEntry) :
    List LokiEntry :=
  processBatchGo maxRequestSize jobEntries [] 0 []

/-! ## Concrete fixtures used by counterexamples and witnesses -/

def entryA : LogEntry := ⟨"jobA", "info", "m1", [1], 0⟩

def entryB : LogEntry := ⟨"jobA", "info", "m2", [2], 1⟩

def entryC : LogEntry := ⟨"jobA", "info", "m3", [3], 2⟩

/-- A sender whose every attempt fails. -/
def failingSender : LogEntry → Nat → Option GoErr := fun _ _ => some GoErr.processingFailed

/-- A sender whose every attempt succeeds. -/
def okSender : LogEntry → Nat → Option GoErr := fun _ _ => none

/-- A Loki group holding `n` records with empty log lines; each record
contributes exactly `EstimatedEntryOverhead` to the estimated size. -/
def recordsGroup (n : Nat) : LokiEntry := ⟨[⟨List.replicate n ["0", ""]⟩]⟩

/-- Three formatted job groups of estimated sizes 100, 200 and 200. -/
def cexGroups : List LokiEntry := [recordsGroup 1, recordsGroup 2, recordsGroup 2]

/-- The marker entry that `AsyncLogger.Flush` (lines 571-579) enqueues. -/
def markerEntry : ALEntry :=
  ⟨"application", "info", "flush-marker", [KV.str "_flush_marker", KV.chanId 0], []⟩

def plainEntry : ALEntry := ⟨"application", "info", "hello", [KV.str "k", KV.str "v"], []⟩

/-- A freshly constructed `AsyncLogger` with buffer capacity 4 and batch
size 100, non-blocking. -/
def alOpenState : ALState :=
  ⟨"application", [], [], 4, 100, false, 5242880, false, false, false, false⟩

/-- A freshly constructed `AsyncDeliverer` with queue capacity 4. -/
def adFresh : ADState := ⟨[], 4, 0, 0, 0, 0, 0, false⟩

/-- A freshly constructed `BatchDeliverer` with queue capacity 4. -/
def bdFresh : BDState := ⟨[], 4, [], 0, 0, 0, 0, 0, 0, false⟩

/-- The initial small-step system state of a fresh `AsyncDeliverer` with one
worker and queue capacity 4. -/
def asyncSysInit : AsyncSys := ⟨[], 4, 0, 0, 0, 0, 0, none, [], none, none⟩

/-- The schedule refuting flush completeness: one entry is delivered, `Flush`
is called, the worker receives the entry (decrementing `buffered` to 0) but
is preempted before `processEntry` calls `Send`, and the watcher performs
both zero-checks in that window. -/
def flushCexSchedule : List AsyncLabel :=
  [AsyncLabel.deliver entryA, AsyncLabel.flushCall, AsyncLabel.workerReceive,
    AsyncLabel.flushObserveZero, AsyncLabel.flushRecheck]

/-- The estimated size of a combined payload built from a stream list; equals
`estimateBatchSize` of the payload. -/
def combinedSize (l : List LokiStream) : Nat := (l.map streamSize).sum

/-! # Theorems -/

/-! ## General helper lemmas about traces and counters -/

theorem countP_flatten_replicate (p : DelEvent → Bool) (blk : List DelEvent) (m : Nat) :
    ((List.replicate m blk).flatten).countP p = m * blk.countP p := by
  induction m with
  | zero => simp
  | succ n ih =>
    rw [List.replicate_succ, List.flatten_cons, List.countP_append, ih, Nat.succ_mul]
    omega

theorem filterMap_flatten_replicate (f : DelEvent → Option Nat) (blk : List DelEvent) (m : Nat) :
    ((List.replicate m blk).flatten).filterMap f =
      (List.replicate m (blk.filterMap f)).flatten := by
  induction m with
  | zero => simp
  | succ n ih => simp [List.replicate_succ, List.flatten_cons, List.filterMap_append, ih]

theorem flatten_replicate_replicate (a b : Nat) (x : Nat) :
    (List.replicate a (List.replicate b x)).flatten = List.replicate (a * b) x := by
  induction a with
  | zero => simp
  | succ n ih =>
    simp only [List.replicate_succ, List.flatten_cons, ih]
    rw [← List.replicate_add]
    have h : b + n * b = (n + 1) * b := by ring
    rw [h]

theorem filterMap_flatten_map {α β γ : Type} (f : β → Option γ) (g : α → List β)
    (l : List α) :
    ((l.map g).flatten).filterMap f = (l.map (fun e => (g e).filterMap f)).flatten := by
  induction l with
  | nil => simp
  | cons a rest ih => simp [List.filterMap_append, ih]

theorem flatten_map_singleton {α β : Type} (f : α → β) (l : List α) :
    (l.map (fun x => [f x])).flatten = l.map f := by
  induction l with
  | nil => rfl
  | cons a r ih => simp [ih]

theorem countP_flatten_map_const (p : DelEvent → Bool) (f : LogEntry → List DelEvent)
    (batch : List LogEntry) (c : Nat) (hc : ∀ e ∈ batch, (f e).countP p = c) :
    ((batch.map f).flatten).countP p = batch.length * c := by
  induction batch with
  | nil => simp
  | cons a rest ih =>
    simp only [List.map_cons, List.flatten_cons, List.countP_append,
      hc a (by simp), ih (fun e he => hc e (by simp [he])), List.length_cons]
    ring

/-! ## The retry loop under a permanently failing sender -/

theorem attemptLoop_permfail_pos (sender : Nat → Option ε) (h : ∀ i, sender i ≠ none)
    (r : Nat) (job : String) (p : List Nat) :
    ∀ (rem attempt : Nat), 0 < attempt →
      attemptLoop sender r job p attempt rem =
        ((List.replicate rem
          [DelEvent.incRetried, DelEvent.sleep r, DelEvent.send job p]).flatten, false) := by
  intro rem
  induction rem with
  | zero => intro attempt _; simp [attemptLoop]
  | succ n ih =>
    intro attempt ha
    rw [attemptLoop]
    cases hs : sender attempt with
    | none => exact absurd hs (h attempt)
    | some e =>
      simp only [hs, if_pos ha, ih (attempt + 1) (Nat.succ_pos attempt),
        List.replicate_succ, List.flatten_cons]
      rfl

theorem attemptLoop_permfail_zero (sender : Nat → Option ε) (h : ∀ i, sender i ≠ none)
    (r : Nat) (job : String) (p : List Nat) (m : Nat) :
    attemptLoop sender r job p 0 (m + 1) =
      (DelEvent.send job p ::
        (List.replicate m
          [DelEvent.incRetried, DelEvent.sleep r, DelEvent.send job p]).flatten, false) := by
  rw [attemptLoop]
  cases hs : sender 0 with
  | none => exact absurd hs (h 0)
  | some e =>
    simp only [hs, attemptLoop_permfail_pos sender h r job p m 1 Nat.one_pos]
    rfl

theorem sendOneEntry_permfail (sender : LogEntry → Nat → Option ε)
    (maxRetries retryInterval : Nat) (e : LogEntry) (h : ∀ i, sender e i ≠ none) :
    sendOneEntry sender maxRetries retryInterval e =
      (permFailEntryTrace maxRetries retryInterval e, false) := by
  unfold sendOneEntry
  rw [attemptLoop_permfail_zero (sender e) h retryInterval e.job e.formatted maxRetries]
  simp [permFailEntryTrace]

theorem sendBatchTrace_permfail (sender : LogEntry → Nat → Option ε)
    (m r : Nat) (batch : List LogEntry)
    (h : ∀ e ∈ batch, ∀ i, sender e i ≠ none) (hne : batch ≠ []) :
    sendBatchTrace sender m r batch =
      (batch.map (permFailEntryTrace m r)).flatten ++ [DelEvent.incDelivered 0] := by
  unfold sendBatchTrace
  rw [if_neg (by simpa [List.isEmpty_iff] using hne)]
  have hmap : batch.map (sendOneEntry sender m r) =
      batch.map (fun e => (permFailEntryTrace m r e, false)) :=
    List.map_congr_left (fun e he => sendOneEntry_permfail sender m r e (h e he))
  rw [hmap]
  dsimp only
  rw [List.map_map, List.countP_map]
  have h1 : List.map (Prod.fst ∘ fun e => (permFailEntryTrace m r e, false)) batch
      = List.map (permFailEntryTrace m r) batch :=
    List.map_congr_left (fun e _ => rfl)
  have h2 : List.countP ((fun p => p.2) ∘ fun e => (permFailEntryTrace m r e, false)) batch
      = 0 :=
    List.countP_eq_zero.mpr (fun e _ => by simp [Function.comp])
  rw [h1, h2]

theorem processEntryTrace_permfail (sender : Nat → Option ε) (m r : Nat) (e : LogEntry)
    (h : ∀ i, sender i ≠ none) :
    processEntryTrace sender m r e = permFailEntryTrace m r e := by
  unfold processEntryTrace
  rw [attemptLoop_permfail_zero sender h r e.job e.formatted m]
  simp [permFailEntryTrace]

theorem countSends_permFail (m r : Nat) (e : LogEntry) :
    countSends (permFailEntryTrace m r e) = m + 1 := by
  simp [countSends, permFailEntryTrace, List.countP_cons, List.countP_append,
    countP_flatten_replicate, isSendEvent]

theorem countRetried_permFail (m r : Nat) (e : LogEntry) :
    countRetried (permFailEntryTrace m r e) = m := by
  simp [countRetried, permFailEntryTrace, List.countP_cons, List.countP_append,
    countP_flatten_replicate, isRetriedEvent]

theorem countHandler_permFail (m r : Nat) (e : LogEntry) :
    countHandlerCalls (permFailEntryTrace m r e) = 0 := by
  simp [countHandlerCalls, permFailEntryTrace, List.countP_cons, List.countP_append,
    countP_flatten_replicate, isHandlerEvent]

theorem sleepsOf_permFail (m r : Nat) (e : LogEntry) :
    sleepsOf (permFailEntryTrace m r e) = List.replicate m r := by
  simp [sleepsOf, permFailEntryTrace, List.filterMap_cons, List.filterMap_append,
    filterMap_flatten_replicate, sleepDuration, flatten_replicate_replicate]

theorem failedList_permFail (m r : Nat) (e : LogEntry) :
    (permFailEntryTrace m r e).filterMap failedAmount = [1] := by
  simp [permFailEntryTrace, List.filterMap_cons, List.filterMap_append,
    filterMap_flatten_replicate, failedAmount]

theorem deliveredList_permFail (m r : Nat) (e : LogEntry) :
    (permFailEntryTrace m r e).filterMap deliveredAmount = [] := by
  simp [permFailEntryTrace, List.filterMap_cons, List.filterMap_append,
    filterMap_flatten_replicate, deliveredAmount]

/-! ## Claim C1: retry bound -/

/-- C1, counterexample.  The claim says a permanently failing batch causes
exactly `maxRetries + 1` send attempts and exactly one error-handler
invocation for that batch.  On the code: with `maxRetries = 1` and a batch
of 2 records, `BatchDeliverer.sendBatch` retries each record individually
and makes `2 * (1 + 1) = 4` send attempts, not `1 + 1 = 2`; and the
delivery-package deliverers have no error handler, so it is invoked 0 times,
not once. -/
theorem C1_counterexample :
    countSends (sendBatchTrace failingSender 1 50 [entryA, entryB]) = 4 ∧
    (4 : Nat) ≠ 1 + 1 ∧
    countHandlerCalls (sendBatchTrace failingSender 1 50 [entryA, entryB]) = 0 ∧
    (0 : Nat) ≠ 1 := by
  refine ⟨by decide, by decide, by decide, by decide⟩

/-- C1, amended: for every batch whose sender permanently fails, the
deliverer makes exactly `maxRetries + 1` send attempts *per record* (so
`batch.length * (maxRetries + 1)` in total), increments `retried` once per
retry, and waits `retryInterval` before each retry (the trace of each record
is one send followed by `maxRetries` blocks of retried-increment, sleep of
`retryInterval`, send); after the last attempt of a record fails, `failed`
increases by 1 per record — `batch.length` for the whole batch — `delivered`
does not increase, and no error handler is invoked because the delivery
deliverers define none.  `AsyncDeliverer.processEntry` shows the same
single-record trace. -/
theorem C1_amended_retry_bound (ε : Type) (sender : LogEntry → Nat → Option ε)
    (maxRetries retryInterval : Nat) (batch : List LogEntry)
    (h : ∀ e ∈ batch, ∀ i, sender e i ≠ none) (hne : batch ≠ []) :
    sendBatchTrace sender maxRetries retryInterval batch =
        (batch.map (permFailEntryTrace maxRetries retryInterval)).flatten
          ++ [DelEvent.incDelivered 0] ∧
    countSends (sendBatchTrace sender maxRetries retryInterval batch)
        = batch.length * (maxRetries + 1) ∧
    countRetried (sendBatchTrace sender maxRetries retryInterval batch)
        = batch.length * maxRetries ∧
    sleepsOf (sendBatchTrace sender maxRetries retryInterval batch)
        = List.replicate (batch.length * maxRetries) retryInterval ∧
    failedDelta (sendBatchTrace sender maxRetries retryInterval batch) = batch.length ∧
    deliveredDelta (sendBatchTrace sender maxRetries retryInterval batch) = 0 ∧
    countHandlerCalls (sendBatchTrace sender maxRetries retryInterval batch) = 0 ∧
    ∀ e ∈ batch, processEntryTrace (sender e) maxRetries retryInterval e
        = permFailEntryTrace maxRetries retryInterval e := by
  have htr := sendBatchTrace_permfail sender maxRetries retryInterval batch h hne
  refine ⟨htr, ?_, ?_, ?_, ?_, ?_, ?_, ?_⟩
  · rw [htr]
    unfold countSends
    rw [List.countP_append,
      countP_flatten_map_const _ _ _ _ (fun e _ => countSends_permFail maxRetries retryInterval e)]
    simp [isSendEvent, List.countP_cons]
  · rw [htr]
    unfold countRetried
    rw [List.countP_append,
      countP_flatten_map_const _ _ _ _ (fun e _ => countRetried_permFail maxRetries retryInterval e)]
    simp [isRetriedEvent, List.countP_cons]
  · rw [htr]
    unfold sleepsOf
    rw [List.filterMap_append, filterMap_flatten_map]
    have hmap : batch.map (fun e => (permFailEntryTrace maxRetries retryInterval e).filterMap
        sleepDuration) = batch.map (fun _ => List.replicate maxRetries retryInterval) :=
      List.map_congr_left (fun e _ => sleepsOf_permFail maxRetries retryInterval e)
    rw [hmap]
    have hconst : batch.map (fun _ => List.replicate maxRetries retryInterval)
        = List.replicate batch.length (List.replicate maxRetries retryInterval) := by
      simp [List.map_const]
    rw [hconst, flatten_replicate_replicate]
    simp [sleepDuration]
  · rw [htr]
    unfold failedDelta
    rw [List.filterMap_append, filterMap_flatten_map]
    have hmap : batch.map (fun e => (permFailEntryTrace maxRetries retryInterval e).filterMap
        failedAmount) = batch.map (fun _ => [1]) :=
      List.map_congr_left (fun e _ => failedList_permFail maxRetries retryInterval e)
    rw [hmap]
    have hconst : batch.map (fun _ : LogEntry => [(1 : Nat)])
        = List.replicate batch.length [1] := by
      simp [List.map_const]
    rw [hconst]
    have hflat := flatten_replicate_replicate batch.length 1 1
    simp only [List.replicate_one] at hflat
    rw [hflat]
    simp [failedAmount, List.sum_replicate]
  · rw [htr]
    unfold deliveredDelta
    rw [List.filterMap_append, filterMap_flatten_map]
    have hmap : batch.map (fun e => (permFailEntryTrace maxRetries retryInterval e).filterMap
        deliveredAmount) = batch.map (fun _ => ([] : List Nat)) :=
      List.map_congr_left (fun e _ => deliveredList_permFail maxRetries retryInterval e)
    rw [hmap]
    simp [deliveredAmount]
  · rw [htr]
    unfold countHandlerCalls
    rw [List.countP_append,
      countP_flatten_map_const _ _ _ _ (fun e _ => countHandler_permFail maxRetries retryInterval e)]
    simp [isHandlerEvent, List.countP_cons]
  · exact fun e he => processEntryTrace_permfail (sender e) maxRetries retryInterval e (h e he)

/-- C1 witness: the amended theorem applied to a concrete permanently
failing sender, `maxRetries = 2`, `retryInterval = 7`, and a one-record
batch. -/
theorem C1_amended_retry_bound_witness :
    (∀ e ∈ [entryA], ∀ i, failingSender e i ≠ none) ∧
    countSends (sendBatchTrace failingSender 2 7 [entryA]) = 1 * (2 + 1) :=
  ⟨fun _ _ _ hc => by simp [failingSender] at hc,
    (C1_amended_retry_bound GoErr failingSender 2 7 [entryA]
      (fun _ _ _ hc => by simp [failingSender] at hc) (by simp)).2.1⟩

/-! ## Claim C9: SyncDeliverer contract -/

/-- C9: `SyncDeliverer.Deliver` calls the Sender exactly once and returns its
result unchanged, incrementing `delivered` by 1 on success and `failed` by 1
on failure; `Flush` and `Close` return nil and change no state. -/
theorem C9_sync_deliverer (ε : Type) (d : SyncDeliverer)
    (sender : String → List Nat → Option ε) (job level message : String)
    (formatted : List Nat) (ts : Nat) :
    (d.Deliver sender job level message formatted ts).sendCalls = [(job, formatted)] ∧
    (d.Deliver sender job level message formatted ts).ret = sender job formatted ∧
    (sender job formatted = none →
      (d.Deliver sender job level message formatted ts).state
        = { d with delivered := d.delivered + 1 }) ∧
    (∀ e, sender job formatted = some e →
      (d.Deliver sender job level message formatted ts).state
        = { d with failed := d.failed + 1 }) ∧
    d.Flush = (d, none) ∧
    d.Close = (d, none) := by
  unfold SyncDeliverer.Deliver SyncDeliverer.Flush SyncDeliverer.Close
  cases hs : sender job formatted <;> simp [hs]

/-- C9 witness: the contract at a concrete deliverer and a succeeding
sender. -/
theorem C9_sync_deliverer_witness :
    ((SyncDeliverer.mk 0 0).Deliver (fun _ _ => (none : Option GoErr)) "j" "info" "m" [1] 0).sendCalls
      = [("j", [1])] :=
  (C9_sync_deliverer GoErr ⟨0, 0⟩ (fun _ _ => none) "j" "info" "m" [1] 0).1

/-! ## Claim C5: non-blocking drop accounting -/

/-- C5: under the non-blocking admission policy, a `Deliver` call that finds
the queue full returns `BufferFull`, increments `dropped` by exactly 1,
leaves `buffered` (and every other field, the queue included) unchanged, and
discards the entry — it is stored nowhere, so it can never be retried or
enqueued later.  Both `AsyncDeliverer.Deliver` and `BatchDeliverer.Deliver`. -/
theorem C5_nonblocking_drop (ad : ADState) (bd : BDState) (e f : LogEntry)
    (ha : ¬ ad.queue.length < ad.queueSize) (hb : ¬ bd.queue.length < bd.queueSize) :
    ad.Deliver e = ({ ad with dropped := ad.dropped + 1 }, some GoErr.bufferFull) ∧
    bd.Deliver f = ({ bd with dropped := bd.dropped + 1 }, some GoErr.bufferFull) := by
  constructor
  · unfold ADState.Deliver
    rw [if_neg ha]
  · unfold BDState.Deliver
    rw [if_neg hb]

/-- C5 witness: a full queue of capacity 2 rejects the next entry on both
deliverers. -/
theorem C5_nonblocking_drop_witness :
    ((⟨[entryA, entryB], 2, 2, 0, 0, 0, 0, false⟩ : ADState).Deliver entryC).2
      = some GoErr.bufferFull ∧
    ((⟨[entryA, entryB], 2, [], 2, 0, 0, 0, 0, 0, false⟩ : BDState).Deliver entryC).2
      = some GoErr.bufferFull := by
  have h := C5_nonblocking_drop ⟨[entryA, entryB], 2, 2, 0, 0, 0, 0, false⟩
    ⟨[entryA, entryB], 2, [], 2, 0, 0, 0, 0, 0, false⟩ entryC entryC
    (by decide) (by decide)
  exact ⟨by rw [h.1], by rw [h.2]⟩

/-! ## Claim C3: closed deliverer rejects new work -/

/-- C3, counterexample.  The claim says every `Deliver` call after `Close`
returns `LoggerClosed`.  `AsyncDeliverer` has no closed flag: after a
completed `Close` on a fresh deliverer, `Deliver` still succeeds — it
returns nil and enqueues the entry (which no worker will ever process, the
workers having exited). -/
theorem C3_counterexample :
    (ADState.CloseStep adFresh true).2 = CloseOutcome.ok ∧
    ((ADState.CloseStep adFresh true).1.Deliver entryA).2 = none ∧
    (none : Option GoErr) ≠ some GoErr.loggerClosed ∧
    ((ADState.CloseStep adFresh true).1.Deliver entryA).1.queue = [entryA] := by
  refine ⟨by decide, by decide, by decide, by decide⟩

/-- C3, amended: for the `AsyncLogger`, after `Close` has set the closed
flag, every subsequent `log` call returns `LoggerClosed` and leaves the
state unchanged — in particular nothing is enqueued, so the Sender is never
invoked for a new entry.  The `delivery`-package `AsyncDeliverer`, by
contrast, has no closed flag: `Deliver` after `Close` still enqueues the
entry and returns nil whenever the queue has room (the entry is never sent,
the workers having exited). -/
theorem C3_amended_closed_rejection (st : ALState) (h : st.closed = true)
    (level message : String) (kvs : List KV)
    (ad : ADState) (e : LogEntry) (had : ad.queue.length < ad.queueSize) :
    st.log level message kvs = (st, LogOutcome.ret (some GoErr.loggerClosed)) ∧
    (((ADState.CloseStep ad true).1).Deliver e).2 = none := by
  constructor
  · unfold ALState.log
    rw [if_pos h]
  · have hq : ((ADState.CloseStep ad true).1).queue = ad.queue ∧
        ((ADState.CloseStep ad true).1).queueSize = ad.queueSize := by
      unfold ADState.CloseStep
      by_cases hd : ad.doneClosed <;> simp [hd]
    unfold ADState.Deliver
    rw [if_pos (by rw [hq.1, hq.2]; exact had)]

/-- C3 witness: the amended theorem at a closed `AsyncLogger` state and a
fresh `AsyncDeliverer`. -/
theorem C3_amended_closed_rejection_witness :
    ({ alOpenState with closed := true }.log "info" "m" []).2
      = LogOutcome.ret (some GoErr.loggerClosed) :=
  congrArg Prod.snd
    (C3_amended_closed_rejection { alOpenState with closed := true } (by decide)
      "info" "m" [] adFresh entryA (by decide)).1

/-! ## Claim C4: Close idempotence -/

/-- C4, counterexample.  The claim says every second `Close` call returns
`LoggerClosed` immediately.  `BatchDeliverer.Close` has no closed guard: a
first `Close` on a fresh deliverer returns nil, and a second `Close` reaches
`close(d.done)` on an already-closed channel, which is a Go runtime fault —
not a `LoggerClosed` return. -/
theorem C4_counterexample :
    (BDState.CloseStep bdFresh none true).2 = CloseOutcome.ok ∧
    (BDState.CloseStep (BDState.CloseStep bdFresh none true).1 none true).2
      = CloseOutcome.crash ∧
    CloseOutcome.crash ≠ CloseOutcome.err GoErr.loggerClosed := by
  refine ⟨by decide, by decide, by decide⟩

/-- C4, amended: the `AsyncLogger` satisfies the claim — the first `Close`
performs the closed-state transition once (whatever the inner flush
returns), and every later `Close` returns `LoggerClosed` immediately with no
state change.  The `delivery`-package `BatchDeliverer` has no closed guard:
its second `Close` faults on closing the already-closed `done` channel
instead of returning `LoggerClosed`. -/
theorem ALState_CloseStep_closed (st : ALState) (h : st.closed = true)
    (fr : Option GoErr) :
    st.CloseStep fr = (st, CloseOutcome.err GoErr.loggerClosed) := by
  unfold ALState.CloseStep
  rw [if_pos h]

theorem BDState_CloseStep_done (bd : BDState) (h : bd.doneClosed = true)
    (fr : Option GoErr) (w : Bool) :
    bd.CloseStep fr w = (bd, CloseOutcome.crash) := by
  unfold BDState.CloseStep
  rw [if_pos h]

theorem C4_amended_close_idempotence (st : ALState) (h : st.closed = false)
    (fr fr2 : Option GoErr) (bd : BDState) (hbd : bd.doneClosed = false)
    (fbd fbd2 : Option GoErr) (w w2 : Bool) :
    (st.CloseStep fr).1.closed = true ∧
    (st.CloseStep fr).1.CloseStep fr2
      = ((st.CloseStep fr).1, CloseOutcome.err GoErr.loggerClosed) ∧
    (bd.CloseStep fbd w).1.CloseStep fbd2 w2
      = ((bd.CloseStep fbd w).1, CloseOutcome.crash) := by
  have hclosed : (st.CloseStep fr).1.closed = true := by
    unfold ALState.CloseStep
    rw [if_neg (by simp [h])]
    cases fr with
    | none => rfl
    | some e => by_cases he : e = GoErr.loggerClosed <;> simp [he]
  have hbd2 : (bd.CloseStep fbd w).1.doneClosed = true := by
    unfold BDState.CloseStep
    rw [if_neg (by simp [hbd])]
    cases fbd with
    | none => by_cases hw : w <;> simp [hw]
    | some e => rfl
  exact ⟨hclosed, ALState_CloseStep_closed _ hclosed fr2,
    BDState_CloseStep_done _ hbd2 fbd2 w2⟩

/-- C4 witness: the amended theorem at a fresh `AsyncLogger` and a fresh
`BatchDeliverer`, with nil flush results. -/
theorem C4_amended_close_idempotence_witness :
    ((alOpenState.CloseStep none).1.CloseStep none).2
      = CloseOutcome.err GoErr.loggerClosed :=
  congrArg Prod.snd
    (C4_amended_close_idempotence alOpenState (by decide) none none bdFresh (by decide)
      none none true true).2.1

/-! ## Claim C2: flush completeness -/

/-- C2: the claim says that when `Flush` returns nil, every entry enqueued
strictly before the `Flush` call has been handed to the Sender at least
once.  `AsyncDeliverer.Flush` only polls the `buffered` counter, which the
worker decrements *before* running `processEntry`; under the schedule
`flushCexSchedule` — deliver one entry, call `Flush`, worker receives the
entry, watcher performs both zero-checks — `Flush` returns nil
(`flushReturn = some none`) while no `Send` call has happened
(`senderCalls = []`, `delivered = failed = 0`) and the worker still holds
the entry.  The final state is evaluated below in full. -/
theorem C2_flush_nil_entry_never_sent :
    asyncSysRun okSender 3 50 asyncSysInit flushCexSchedule =
      some { queue := [], queueSize := 4, buffered := 0, delivered := 0, failed := 0,
             dropped := 0, retried := 0, handling := some entryA, senderCalls := [],
             flushPhase := some FlushPhase.signalled, flushReturn := some none } := by
  decide

/-! ## Claim C7: no discard after acceptance -/

/-- C7, counterexample.  The claim says an entry accepted by `Deliver` (nil
return) is never discarded by a later step.  On the code: an entry accepted
while the logger is open sits in the buffer; once `Close` has set the closed
flag (and before the drain finishes), the dedicated marker-handling worker
that receives it finds `shouldRequeueEntry` false and silently drops it —
it is consumed without being requeued, formatted, or sent. -/
theorem C7_counterexample :
    (alOpenState.log "info" "hello" [KV.str "k", KV.str "v"]).2 = LogOutcome.ret none ∧
    (alOpenState.log "info" "hello" [KV.str "k", KV.str "v"]).1.buffer = [plainEntry] ∧
    isFlushMarker plainEntry.keyvals = false ∧
    handleBufferEntry
      { (alOpenState.log "info" "hello" [KV.str "k", KV.str "v"]).1 with closed := true }
      plainEntry = MarkerAction.droppedNoRequeue := by
  refine ⟨by decide, by decide, by decide, by decide⟩

/-- C7, amended: after acceptance an entry can still be discarded, but only
by the marker-handling worker and only in two situations: shutdown has begun
(closed flag or closed `done` channel), or the buffer is full at requeue
time.  When the logger is open and the buffer has room, the non-marker entry
it receives is requeued, not dropped. -/
theorem C7_amended_post_acceptance (st : ALState) (e : ALEntry)
    (hm : isFlushMarker e.keyvals = false) :
    handleBufferEntry st e =
      (if st.closed || st.doneClosed then MarkerAction.droppedNoRequeue
        else if st.buffer.length < st.bufferCap then MarkerAction.requeued
        else MarkerAction.droppedBufferFull) ∧
    (st.closed = false → st.doneClosed = false → st.buffer.length < st.bufferCap →
      handleBufferEntry st e = MarkerAction.requeued) := by
  unfold handleBufferEntry
  rw [if_neg (by simp [hm])]
  exact ⟨rfl, fun h1 h2 h3 => by simp [h1, h2, h3]⟩

/-- C7 witness: an open logger with room requeues the non-marker entry. -/
theorem C7_amended_post_acceptance_witness :
    handleBufferEntry alOpenState plainEntry = MarkerAction.requeued :=
  (C7_amended_post_acceptance alOpenState plainEntry (by decide)).2
    (by decide) (by decide) (by decide)

/-! ## Claim C6: size-aware payload splitting -/

theorem combinedSize_append (a b : List LokiStream) :
    combinedSize (a ++ b) = combinedSize a + combinedSize b := by
  simp [combinedSize]

theorem estimateBatchSize_mk (l : List LokiStream) :
    estimateBatchSize ⟨l⟩ = combinedSize l := rfl

theorem combinedSize_streams (je : LokiEntry) :
    combinedSize je.streams = estimateBatchSize je := rfl

theorem estimateBatchSize_nil_streams (je : LokiEntry) (h : je.streams = []) :
    estimateBatchSize je = 0 := by
  unfold estimateBatchSize
  rw [h]
  simp

/-- The loop invariant of `processBatch`: `est` over-approximates the
combined payload's size up to one uncounted group (the group appended right
after a split, whose size the source forgets when it resets `estimatedSize`
to zero), and `est` exceeds `maxReq` only while the combined payload is a
single group. -/
theorem processBatchGo_bound (maxReq G : Nat) :
    ∀ (jes : List LokiEntry) (combined : List LokiStream) (est : Nat) (sends : List LokiEntry),
      (∀ je ∈ jes, estimateBatchSize je ≤ G) →
      combinedSize combined ≤ est + G →
      (est ≤ maxReq ∨ combinedSize combined ≤ G) →
      (combined = [] → est = 0) →
      (∀ p ∈ sends, estimateBatchSize p ≤ maxReq + G) →
      ∀ p ∈ processBatchGo maxReq jes combined est sends,
        estimateBatchSize p ≤ maxReq + G := by
  intro jes
  induction jes with
  | nil =>
    intro combined est sends _ h1 h2 h3 hsends p hp
    unfold processBatchGo at hp
    by_cases hc : 0 < combined.length
    · rw [if_pos hc] at hp
      rcases List.mem_append.mp hp with hmem | hmem
      · exact hsends p hmem
      · have hpe : p = LokiEntry.mk combined := by simpa using hmem
        subst hpe
        rw [estimateBatchSize_mk]
        rcases h2 with hle | hle
        · omega
        · omega
    · rw [if_neg hc] at hp
      exact hsends p hp
  | cons je rest ih =>
    intro combined est sends hjes h1 h2 h3 hsends
    unfold processBatchGo
    by_cases hcond : maxReq < est + estimateBatchSize je ∧ 0 < combined.length
    · rw [if_pos hcond]
      apply ih
      · exact fun x hx => hjes x (by simp [hx])
      · rw [combinedSize_streams je]
        have := hjes je (by simp)
        omega
      · exact Or.inl (Nat.zero_le maxReq)
      · intro _
        rfl
      · intro p hp
        rcases List.mem_append.mp hp with hmem | hmem
        · exact hsends p hmem
        · have hpe : p = LokiEntry.mk combined := by simpa using hmem
          subst hpe
          rw [estimateBatchSize_mk]
          rcases h2 with hle | hle
          · omega
          · omega
    · rw [if_neg hcond]
      apply ih
      · exact fun x hx => hjes x (by simp [hx])
      · rw [combinedSize_append, combinedSize_streams je]
        have := hjes je (by simp)
        omega
      · rcases Decidable.not_and_iff_or_not.mp hcond with hle | hlen
        · exact Or.inl (by omega)
        · have hnil : combined = [] := by
            cases combined with
            | nil => rfl
            | cons a b => simp at hlen
          subst hnil
          right
          rw [List.nil_append, combinedSize_streams je]
          exact hjes je (by simp)
      · intro hboth
        rcases List.append_eq_nil.mp hboth with ⟨hc, hs⟩
        subst hc
        have h0 : est = 0 := h3 rfl
        have hj0 : estimateBatchSize je = 0 := estimateBatchSize_nil_streams je hs
        omega
      · exact hsends

/-- C6, counterexample.  The claim bounds every sent payload by
`maxPayloadSize` plus one record's worth of overhead.  In `cexGroups` every
record has estimated size exactly `EstimatedEntryOverhead = 100` (its log
line is empty), so the claimed bound is `250 + 100 = 350` under either
reading of "one record's worth".  Running the accumulator with
`maxRequestSize = 250` over groups of sizes 100, 200 and 200 sends two
payloads of estimated sizes 100 and 400: after the split triggered by the
second group, the source resets the running size to zero without counting
that group, so the third group no longer triggers a split and the final
payload reaches 400 > 350. -/
theorem C6_counterexample :
    cexGroups.map estimateBatchSize = [100, 200, 200] ∧
    (processBatchSends 250 cexGroups).map estimateBatchSize = [100, 400] ∧
    250 + EstimatedEntryOverhead < 400 := by
  refine ⟨by decide, by decide, by decide⟩

/-- C6, amended: when adding a new group would push the tracked size beyond
`maxPayloadSize` and the accumulated payload is non-empty, the accumulated
payload is sent first and an empty payload is started before the new group
is added (this is the structure of `processBatchGo`); the resulting
guarantee is that no payload handed to `Sender.Send` has an estimated size
exceeding `maxPayloadSize` plus one *group's* estimated size (any bound `G`
on the individual groups), rather than one record's overhead — the tracked
size is reset to zero after a split, leaving at most the one group appended
right after the split uncounted. -/
theorem C6_amended_size_bound (maxReq G : Nat) (jes : List LokiEntry)
    (hG : ∀ je ∈ jes, estimateBatchSize je ≤ G) :
    ∀ p ∈ processBatchSends maxReq jes, estimateBatchSize p ≤ maxReq + G :=
  processBatchGo_bound maxReq G jes [] 0 [] hG
    (by simp [combinedSize]) (Or.inl (Nat.zero_le maxReq)) (fun _ => rfl)
    (fun p hp => absurd hp (List.not_mem_nil p))

/-- C6 witness: the amended bound at the concrete groups of the
counterexample — every group is at most 200, and both sent payloads are at
most `250 + 200`. -/
theorem C6_amended_size_bound_witness :
    (∀ je ∈ cexGroups, estimateBatchSize je ≤ 200) ∧
    (∀ p ∈ processBatchSends 250 cexGroups, estimateBatchSize p ≤ 250 + 200) :=
  ⟨by decide, C6_amended_size_bound 250 200 cexGroups (by decide)⟩

/-! ## Claim C8: batch of size batchSize triggers one dispatch -/

theorem bdProcess_under (bs : Nat) (es : List LogEntry) :
    ∀ (st : BDProcState), (st.currentBatch ++ es).length < bs →
      bdProcessQueueEntries bs st es =
        ⟨st.currentBatch ++ es, st.dispatched, st.buffered - es.length⟩ := by
  induction es with
  | nil =>
    intro st _
    show st = _
    simp
  | cons e rest ih =>
    intro st h
    have hlen : ¬ bs ≤ (st.currentBatch ++ [e]).length := by
      simp only [List.length_append, List.length_cons, List.length_nil] at h ⊢
      omega
    have hstep : bdProcessQueueEntry bs st e =
        ⟨st.currentBatch ++ [e], st.dispatched, st.buffered - 1⟩ := by
      unfold bdProcessQueueEntry
      rw [if_neg hlen]
    have hrec := ih ⟨st.currentBatch ++ [e], st.dispatched, st.buffered - 1⟩
      (by
        simp only [List.append_assoc, List.cons_append, List.nil_append]
        exact h)
    show List.foldl (bdProcessQueueEntry bs) st (e :: rest) = _
    rw [List.foldl_cons, hstep]
    unfold bdProcessQueueEntries at hrec
    rw [hrec]
    simp only [List.append_assoc, List.cons_append, List.nil_append, List.length_cons]
    congr 1
    push_cast
    ring

theorem bdProcess_fill (bs : Nat) (es : List LogEntry) (e : LogEntry) (b0 : Int)
    (h : es.length + 1 = bs) :
    bdProcessQueueEntries bs ⟨[], [], b0⟩ (es ++ [e]) =
      ⟨[], [es ++ [e]], b0 - (es.length + 1)⟩ := by
  unfold bdProcessQueueEntries
  rw [List.foldl_append]
  have h1 := bdProcess_under bs es ⟨[], [], b0⟩ (by simp; omega)
  unfold bdProcessQueueEntries at h1
  rw [h1]
  simp only [List.foldl_cons, List.foldl_nil, List.nil_append]
  unfold bdProcessQueueEntry
  rw [if_pos (by simp [h])]
  congr 1
  push_cast
  ring

/-- A sender whose first attempt succeeds produces a single-send trace for
one entry. -/
theorem sendOneEntry_firstOk (sender : LogEntry → Nat → Option ε)
    (maxRetries retryInterval : Nat) (e : LogEntry) (h : sender e 0 = none) :
    sendOneEntry sender maxRetries retryInterval e =
      ([DelEvent.send e.job e.formatted], true) := by
  unfold sendOneEntry
  rw [attemptLoop]
  simp [h]

/-- C8, counterexample.  The claim says the third `Deliver` with
`batchSize = 3` triggers exactly one `Sender.send` whose payload carries all
3 records.  On the code: two entries produce no dispatch; the third makes
`batchProcessor` hand the 3-record batch to `sendBatch` — which then calls
`Sender.Send` once *per record* (3 calls, each carrying only that record's
own formatted payload), not once with all 3. -/
theorem C8_counterexample :
    (bdProcessQueueEntries 3 ⟨[], [], 3⟩ [entryA, entryB]).dispatched = [] ∧
    (bdProcessQueueEntries 3 ⟨[], [], 3⟩ [entryA, entryB, entryC]).dispatched
      = [[entryA, entryB, entryC]] ∧
    countSends (sendBatchTrace okSender 3 50 [entryA, entryB, entryC]) = 3 ∧
    (3 : Nat) ≠ 1 ∧
    sendsOf (sendBatchTrace okSender 3 50 [entryA, entryB, entryC])
      = [("jobA", [1]), ("jobA", [2]), ("jobA", [3])] := by
  refine ⟨by decide, by decide, by decide, by decide, by decide⟩

/-- C8, amended: with `batchSize = n + 1`, the first `n` `Deliver`ed entries
produce no dispatch to the sender and stay in the accumulated batch; the
entry that makes the batch reach `batchSize` triggers exactly one dispatch
of a batch carrying all `batchSize` records — which `sendBatch` then
transmits as one `Sender.Send` call per record, each carrying that record's
own payload.  In general the accumulated batch is dispatched as soon as its
size reaches `batchSize`. -/
theorem C8_amended_batch_dispatch (ε : Type) (bs : Nat) (es : List LogEntry)
    (e : LogEntry) (b0 : Int) (h : es.length + 1 = bs)
    (sender : LogEntry → Nat → Option ε) (hok : ∀ x, sender x 0 = none)
    (maxRetries retryInterval : Nat) :
    (bdProcessQueueEntries bs ⟨[], [], b0⟩ es).dispatched = [] ∧
    (bdProcessQueueEntries bs ⟨[], [], b0⟩ es).currentBatch = es ∧
    (bdProcessQueueEntries bs ⟨[], [], b0⟩ (es ++ [e])).dispatched = [es ++ [e]] ∧
    sendsOf (sendBatchTrace sender maxRetries retryInterval (es ++ [e]))
      = (es ++ [e]).map (fun x => (x.job, x.formatted)) := by
  have hu := bdProcess_under bs es ⟨[], [], b0⟩ (by simp; omega)
  have hf := bdProcess_fill bs es e b0 h
  refine ⟨by rw [hu], by rw [hu]; simp, by rw [hf], ?_⟩
  unfold sendBatchTrace
  rw [if_neg (by simp)]
  have hmap : (es ++ [e]).map (sendOneEntry sender maxRetries retryInterval) =
      (es ++ [e]).map (fun x => ([DelEvent.send x.job x.formatted], true)) :=
    List.map_congr_left
      (fun x _ => sendOneEntry_firstOk sender maxRetries retryInterval x (hok x))
  rw [hmap]
  dsimp only
  rw [List.map_map]
  unfold sendsOf
  rw [List.filterMap_append, filterMap_flatten_map]
  have h1 : (es ++ [e]).map (fun x =>
      ((Prod.fst ∘ fun x => ([DelEvent.send x.job x.formatted], true)) x).filterMap
        sendCallOf)
      = (es ++ [e]).map (fun x => [(x.job, x.formatted)]) :=
    List.map_congr_left (fun x _ => rfl)
  rw [h1, flatten_map_singleton]
  simp [sendCallOf]

/-- C8 witness: the amended theorem at `batchSize = 3` with three concrete
entries and a succeeding sender. -/
theorem C8_amended_batch_dispatch_witness :
    (bdProcessQueueEntries 3 ⟨[], [], (3 : Int)⟩ ([entryA, entryB] ++ [entryC])).dispatched
      = [[entryA, entryB] ++ [entryC]] :=
  (C8_amended_batch_dispatch GoErr 3 [entryA, entryB] entryC 3 (by decide)
    okSender (fun _ => rfl) 3 50).2.2.1

/-! ## Claim C10: flush-marker classification -/

theorem isFlushMarker_iff (l : List KV) :
    isFlushMarker l = true ↔
      ∃ i, i + 1 < l.length ∧ l[i]? = some (KV.str "_flush_marker") := by
  induction l with
  | nil => simp [isFlushMarker]
  | cons kv rest ih =>
    rw [isFlushMarker]
    simp only [Bool.or_eq_true, Bool.and_eq_true, ih]
    constructor
    · rintro (⟨hk, hne⟩ | ⟨i, hi, hg⟩)
      · refine ⟨0, ?_, ?_⟩
        · cases rest with
          | nil => simp at hne
          | cons a b => simp
        · cases kv with
          | str s =>
            have hs : s = "_flush_marker" := by
              simpa [kvIsMarkerKey] using hk
            simp [hs]
          | chanId id => simp [kvIsMarkerKey] at hk
          | other id => simp [kvIsMarkerKey] at hk
      · exact ⟨i + 1, by simpa using Nat.succ_lt_succ hi, by simpa using hg⟩
    · rintro ⟨i, hi, hg⟩
      cases i with
      | zero =>
        left
        constructor
        · simp only [List.getElem?_cons_zero, Option.some.injEq] at hg
          simp [hg, kvIsMarkerKey]
        · simp only [List.length_cons] at hi
          cases rest with
          | nil => simp at hi
          | cons a b => simp
      | succ j =>
        right
        refine ⟨j, ?_, ?_⟩
        · simp only [List.length_cons] at hi
          omega
        · simpa using hg

/-- C10, counterexample.  The claim says an entry carrying the
`"_flush_marker"` key is always classified and consumed by the dedicated
marker-handling worker and is never formatted.  But the regular batch
workers (`processLogs`) read the *same* buffer and perform no marker check:
when one of them receives the marker entry (here with `batchSize = 1`), the
entry lands in a dispatched batch and `processBatch` formats it like any
other record. -/
theorem C10_counterexample :
    isFlushMarker markerEntry.keyvals = true ∧
    (alProcessLogsEntry 1 ⟨[], []⟩ markerEntry).dispatched = [[markerEntry]] ∧
    batchFormattedEntries [markerEntry]
      = [⟨"application", "info",
          [KV.str "message", KV.str "flush-marker", KV.str "_flush_marker",
            KV.chanId 0]⟩] := by
  refine ⟨by decide, by decide, by decide⟩

/-- C10, amended: an entry whose key-value list holds the string
`"_flush_marker"` at any position before the last element is recognized by
`isFlushMarker` (the characterization below), and *when the dedicated
marker-handling worker receives it* it is consumed — its completion
channels are closed and it is neither requeued nor formatted nor sent.  A
regular batch worker that receives it instead treats it as an ordinary
record: it joins the batch and is formatted once the batch is dispatched. -/
theorem C10_amended_marker_routing (st : ALState) (e : ALEntry)
    (hm : isFlushMarker e.keyvals = true) (bs : Nat) (batch : List ALEntry) :
    (∃ i, i + 1 < e.keyvals.length ∧ e.keyvals[i]? = some (KV.str "_flush_marker")) ∧
    handleBufferEntry st e = MarkerAction.consumedMarker (processFlushMarker e.keyvals) ∧
    (bs ≤ batch.length + 1 →
      alProcessLogsEntry bs ⟨batch, []⟩ e = ⟨[], [batch ++ [e]]⟩ ∧
      createFormattedEntry e ∈ batchFormattedEntries (batch ++ [e])) := by
  refine ⟨(isFlushMarker_iff e.keyvals).mp hm, ?_, ?_⟩
  · unfold handleBufferEntry
    rw [if_pos hm]
  · intro hbs
    constructor
    · unfold alProcessLogsEntry
      rw [if_pos (by simp; omega)]
      simp
    · unfold batchFormattedEntries
      exact List.mem_map_of_mem createFormattedEntry (by simp)

/-- C10 witness: the amended theorem at the concrete marker entry — the
dedicated worker consumes it and signals channel 0. -/
theorem C10_amended_marker_routing_witness :
    handleBufferEntry alOpenState markerEntry
      = MarkerAction.consumedMarker [0] :=
  (C10_amended_marker_routing alOpenState markerEntry (by decide) 1 []).2.1

end Cloudlog
